import Mathlib

/-!
Shallow embedding of `src/transactional.ts` (adonisjs-transaction).

The transaction lifecycle controller `TransactionManager.runInTransaction`
is modelled as a state-passing function.  The ambient AsyncLocalStorage
context becomes an explicit `Option TransactionContext` argument: `storage.run
(context, fn)` is modelled by invoking the unit of work with `some context`,
and the reuse branch passes the existing context through unchanged.  The
external data layer (Lucid's `database.transaction`, `trx.commit`,
`trx.rollback`) is an oracle `DataLayer` deciding, per call, whether the
call succeeds or throws.  Every data-layer call that completes successfully
is recorded in an event trace, so "exactly one commit" style claims become
statements about the trace.  Machine clock: `Date.now` only matters through
the retry delay, so the model clock advances exactly at `setTimeout` waits.
-/

namespace AdonisTransaction

/-- Isolation levels accepted by `TransactionOptions.isolationLevel`. -/
inductive IsolationLevel where
  | readUncommitted
  | readCommitted
  | repeatableRead
  | serializable
deriving DecidableEq, Repr

/-- The `retry` sub-object of `TransactionOptions`: `{attempts, delay}`. -/
structure Retry where
  attempts : Nat
  delay : Nat
deriving DecidableEq, Repr

/-- `TransactionOptions` from the source, field for field. -/
structure TransactionOptions where
  connection : Option String := none
  isolationLevel : Option IsolationLevel := none
  debug : Bool := false
  timeout : Option Nat := none
  retry : Option Retry := none
deriving DecidableEq, Repr

/-- `TransactionContext`: the record bound into AsyncLocalStorage.  The
transaction handle is identified by the open-call index; `id` models the
`trx_<time>_<counter>` string through its counter component. -/
structure TransactionContext where
  transaction : Nat
  id : Nat
  startTime : Nat
  options : TransactionOptions
deriving DecidableEq, Repr

/-- Observable data-layer events, in call order. -/
inductive Event where
  | opened (trxId : Nat)
  | committed (trxId : Nat)
  | rolledBack (trxId : Nat)
  | waited (ms : Nat)
deriving DecidableEq, Repr

/-- Threaded state: the manager's `transactionCounter`, the model clock,
and the trace of completed data-layer calls. -/
structure St where
  counter : Nat := 0
  now : Nat := 0
  trace : List Event := []
deriving DecidableEq, Repr

/-- Oracle for the external data layer: whether each open (indexed by the
counter value it was issued under, with the connection and isolation level
forwarded), commit, and rollback call succeeds or throws. -/
structure DataLayer (ε : Type) where
  openResult : Option String → Option IsolationLevel → Nat → Except ε Unit
  commitResult : Nat → Except ε Unit
  rollbackResult : Nat → Except ε Unit

/-- A unit of work: sees the ambient context and the state, returns a
result or a failure plus the updated state. -/
abbrev UoW (ε α : Type) := Option TransactionContext → St → Except ε α × St

/-- Remaining retry budget of an options value (0 when `retry` is absent). -/
def retryBudget (o : TransactionOptions) : Nat :=
  match o.retry with
  | some r => r.attempts
  | none => 0

/-- `TransactionManager.runInTransaction`, embedded.

Control flow mirrors the source exactly:
* existing context ⇒ reuse branch: invoke `fn` directly, nothing else;
* otherwise generate the id (counter increment), open the transaction
  (outside the `try`, so an open failure propagates with nothing else
  happening), bind the fresh context, run `fn`;
* `try` body covers both `fn` and `trx.commit()`, so a commit failure
  falls into the `catch` exactly like a body failure;
* `catch`: roll back (a rollback failure replaces the caught error and
  aborts), then, when `retry.attempts > 0`, wait `delay` and recurse with
  the budget decremented; otherwise rethrow the caught error. -/
def runInTransaction {ε α : Type} (dl : DataLayer ε) (fn : UoW ε α)
    (options : TransactionOptions) (ctx : Option TransactionContext) (st : St) :
    Except ε α × St :=
  match ctx with
  | some _ => fn ctx st
  | none =>
    let trxId := st.counter + 1
    let st1 : St := { st with counter := trxId }
    match dl.openResult options.connection options.isolationLevel trxId with
    | Except.error e => (Except.error e, st1)
    | Except.ok _ =>
      let st2 : St := { st1 with trace := st1.trace ++ [Event.opened trxId] }
      let context : TransactionContext :=
        { transaction := trxId, id := trxId, startTime := st2.now, options := options }
      match fn (some context) st2 with
      | (Except.ok result, st3) =>
        match dl.commitResult trxId with
        | Except.ok _ =>
          (Except.ok result, { st3 with trace := st3.trace ++ [Event.committed trxId] })
        | Except.error ce =>
          match dl.rollbackResult trxId with
          | Except.error re => (Except.error re, st3)
          | Except.ok _ =>
            let st4 : St := { st3 with trace := st3.trace ++ [Event.rolledBack trxId] }
            match h : options.retry with
            | some r =>
              if hr : r.attempts > 0 then
                let st5 : St := { st4 with now := st4.now + r.delay,
                                           trace := st4.trace ++ [Event.waited r.delay] }
                runInTransaction dl fn
                  { options with retry := some ⟨r.attempts - 1, r.delay⟩ } none st5
              else (Except.error ce, st4)
            | none => (Except.error ce, st4)
      | (Except.error e, st3) =>
        match dl.rollbackResult trxId with
        | Except.error re => (Except.error re, st3)
        | Except.ok _ =>
          let st4 : St := { st3 with trace := st3.trace ++ [Event.rolledBack trxId] }
          match h : options.retry with
          | some r =>
            if hr : r.attempts > 0 then
              let st5 : St := { st4 with now := st4.now + r.delay,
                                         trace := st4.trace ++ [Event.waited r.delay] }
              runInTransaction dl fn
                { options with retry := some ⟨r.attempts - 1, r.delay⟩ } none st5
            else (Except.error e, st4)
          | none => (Except.error e, st4)
termination_by retryBudget options
decreasing_by
  all_goals simp [retryBudget, h]
  all_goals omega

/-- JavaScript values as far as `injectTransaction` distinguishes them: the
code only ever inspects `options?.client` for truthiness, so we model the
values that can sit in an options field, including a transaction handle
(`trxV`, identified by its open index). -/
inductive JsVal where
  | undefinedV
  | nullV
  | boolV (b : Bool)
  | numV (n : Int)
  | strV (s : String)
  | trxV (t : Nat)
deriving DecidableEq, Repr

/-- JavaScript truthiness for the modelled values. -/
def truthy : JsVal → Bool
  | JsVal.undefinedV => false
  | JsVal.nullV => false
  | JsVal.boolV b => b
  | JsVal.numV n => n != 0
  | JsVal.strV s => s != ""
  | JsVal.trxV _ => true

/-- `ModelOptions = Record<string, any>`: a total map from keys to values,
with absent keys reading as `undefined`. -/
abbrev ModelOptions := String → JsVal

/-- The empty options object `{}`. -/
def emptyOptions : ModelOptions := fun _ => JsVal.undefinedV

/-- `injectTransaction(options?)`, embedded.  The ambient
`getCurrentTransaction()` becomes the explicit `trx` argument (the handle of
the current context's transaction, if any).  Source:
`if (!trx || (options?.client)) return options || \x7b\x7d;
 return \x7b ...options, client: trx \x7d`. -/
def injectTransaction (trx : Option Nat) (options : Option ModelOptions) : ModelOptions :=
  match trx with
  | none => options.getD emptyOptions
  | some t =>
    if truthy ((options.getD emptyOptions) "client") then options.getD emptyOptions
    else fun k => if k == "client" then JsVal.trxV t else (options.getD emptyOptions) k

/-- `TransactionUtils.conditional`, embedded.  The predicate's settled value
is the `condition` argument; `null` (the skipped sentinel) is `Option.none`
in the result type.  Source: `if (!shouldExecute) return null;
return runInTransaction(operation, options)`. -/
def conditional {ε α : Type} (dl : DataLayer ε) (condition : Bool) (operation : UoW ε α)
    (options : TransactionOptions) (ctx : Option TransactionContext) (st : St) :
    Except ε (Option α) × St :=
  if !condition then (Except.ok none, st)
  else
    match runInTransaction dl operation options ctx st with
    | (Except.ok a, st1) => (Except.ok (some a), st1)
    | (Except.error e, st1) => (Except.error e, st1)

/-- The distinct error `withSavepoint` throws outside a transaction. -/
inductive SavepointError where
  | notInTransaction
deriving DecidableEq, Repr

/-- `TransactionUtils.withSavepoint`, embedded.  `getCurrentTransaction()`
is read from the explicit ambient context.  Outside a transaction it throws
its own `Error`, modelled as `Sum.inl`; failures of the operation itself are
rethrown unchanged (`Sum.inr`), matching the placeholder
`try ... catch (error) \x7b throw error \x7d`. -/
def withSavepoint {ε α : Type} (nm : String) (operation : UoW ε α)
    (ctx : Option TransactionContext) (st : St) :
    Except (SavepointError ⊕ ε) α × St :=
  match ctx with
  | none => (Except.error (Sum.inl SavepointError.notInTransaction), st)
  | some _ =>
    match operation ctx st with
    | (Except.ok a, st1) => (Except.ok a, st1)
    | (Except.error e, st1) => (Except.error (Sum.inr e), st1)

/-- Number of `opened` events in a trace. -/
def opensIn (tr : List Event) : Nat :=
  tr.countP fun e => match e with | Event.opened _ => true | _ => false

/-- Number of `committed` events in a trace. -/
def commitsIn (tr : List Event) : Nat :=
  tr.countP fun e => match e with | Event.committed _ => true | _ => false

/-- Number of `rolledBack` events in a trace. -/
def rollbacksIn (tr : List Event) : Nat :=
  tr.countP fun e => match e with | Event.rolledBack _ => true | _ => false

/-- Number of `waited` events in a trace. -/
def waitsIn (tr : List Event) : Nat :=
  tr.countP fun e => match e with | Event.waited _ => true | _ => false

/-- Trace left by an always-failing unit of work under retry: starting from
counter `c`, with `n` retries remaining at delay `D`, each attempt opens a
fresh transaction and rolls it back, and every retry attempt is preceded by
a `waited D`. -/
def failTrace (D : Nat) : Nat → Nat → List Event
  | c, 0 => [Event.opened (c + 1), Event.rolledBack (c + 1)]
  | c, n + 1 =>
    Event.opened (c + 1) :: Event.rolledBack (c + 1) :: Event.waited D ::
      failTrace D (c + 1) n

/-! Concrete fixtures used by the witness and counterexample theorems. -/

/-- A data layer on which every open, commit, and rollback succeeds. -/
def dlGood : DataLayer Nat where
  openResult := fun _ _ _ => Except.ok ()
  commitResult := fun _ => Except.ok ()
  rollbackResult := fun _ => Except.ok ()

/-- A data layer on which opens and rollbacks succeed but every commit
throws error `42`. -/
def dlCommitFail : DataLayer Nat where
  openResult := fun _ _ _ => Except.ok ()
  commitResult := fun _ => Except.error 42
  rollbackResult := fun _ => Except.ok ()

/-- A data layer on which every attempt to open a transaction throws
error `7`. -/
def dlOpenFail : DataLayer Nat where
  openResult := fun _ _ _ => Except.error 7
  commitResult := fun _ => Except.ok ()
  rollbackResult := fun _ => Except.ok ()

/-- A unit of work that always succeeds with `5` and touches nothing. -/
def fnOkW : UoW Nat Nat := fun _ s => (Except.ok 5, s)

/-- A unit of work that always fails with error `3` and touches nothing. -/
def fnFailW : UoW Nat Nat := fun _ s => (Except.error 3, s)

/-- A sample already-current transaction context. -/
def ctxW : TransactionContext :=
  { transaction := 1, id := 1, startTime := 0, options := {} }

/-- The initial state: counter 0, clock 0, empty trace. -/
def st0 : St := {}

/-- Claim C1: when a transaction record is already current, a nested
`runInTransaction` call invokes the unit of work directly and propagates
its result or failure unchanged — it opens no transaction and issues no
commit or rollback (first conjunct: the nested call is literally the unit
of work, so it adds no data-layer events of its own).  Consequently an
outermost call whose unit of work is itself a nested `runInTransaction`
opens exactly one transaction and issues exactly one commit overall
(second conjunct: the full trace gains exactly one `opened` and one
`committed` event). -/
theorem nested_call_reuses_transaction {ε α : Type} :
    (∀ (dl : DataLayer ε) (fn : UoW ε α) (opts : TransactionOptions)
        (c : TransactionContext) (st : St),
        runInTransaction dl fn opts (some c) st = fn (some c) st)
    ∧ (∀ (dl : DataLayer ε) (opts opts2 : TransactionOptions) (a : α) (st : St),
        dl.openResult opts.connection opts.isolationLevel (st.counter + 1) = Except.ok () →
        dl.commitResult (st.counter + 1) = Except.ok () →
        runInTransaction dl
          (fun ctx s => runInTransaction dl (fun _ s2 => (Except.ok a, s2)) opts2 ctx s)
          opts none st
          = (Except.ok a,
             { st with counter := st.counter + 1,
                       trace := st.trace ++ [Event.opened (st.counter + 1),
                                             Event.committed (st.counter + 1)] })) := by
  constructor
  · intro dl fn opts c st
    rw [runInTransaction]
  · intro dl opts opts2 a st hopen hcommit
    rw [runInTransaction]
    simp only [hopen]
    rw [runInTransaction]
    simp [hcommit]

/-- Witness for C1 at concrete inputs. -/
theorem nested_call_reuses_transaction_witness :
    runInTransaction dlGood fnFailW ({} : TransactionOptions) (some ctxW) st0
      = fnFailW (some ctxW) st0
    ∧ runInTransaction dlGood
        (fun ctx s =>
          runInTransaction dlGood (fun _ s2 => (Except.ok 5, s2)) ({} : TransactionOptions) ctx s)
        ({} : TransactionOptions) none st0
      = (Except.ok 5,
         { st0 with counter := st0.counter + 1,
                    trace := st0.trace ++ [Event.opened (st0.counter + 1),
                                           Event.committed (st0.counter + 1)] }) := by
  constructor
  · exact nested_call_reuses_transaction.1 dlGood fnFailW {} ctxW st0
  · exact nested_call_reuses_transaction.2 dlGood {} {} 5 st0 rfl rfl

/-- Claim C2: for a unit of work that completes successfully inside a
top-level `runInTransaction` call (no record current on entry), the
controller's entire contribution to the trace is one `opened` event before
the body and one `committed` event after it — commit is called exactly
once, rollback never — and the unit of work's result is returned. -/
theorem success_commits_once_returns_result {ε α : Type}
    (dl : DataLayer ε) (fn : UoW ε α) (opts : TransactionOptions)
    (st st2 : St) (a : α)
    (hopen : dl.openResult opts.connection opts.isolationLevel (st.counter + 1) = Except.ok ())
    (hfn : fn (some { transaction := st.counter + 1, id := st.counter + 1,
                      startTime := st.now, options := opts })
             { st with counter := st.counter + 1,
                       trace := st.trace ++ [Event.opened (st.counter + 1)] }
           = (Except.ok a, st2))
    (hcommit : dl.commitResult (st.counter + 1) = Except.ok ()) :
    runInTransaction dl fn opts none st
      = (Except.ok a,
         { st2 with trace := st2.trace ++ [Event.committed (st.counter + 1)] }) := by
  rw [runInTransaction]
  simp only [hopen, hfn, hcommit]

/-- Witness for C2 at concrete inputs. -/
theorem success_commits_once_returns_result_witness :
    runInTransaction dlGood fnOkW ({} : TransactionOptions) none st0
      = (Except.ok 5,
         { st0 with counter := 1, trace := [Event.opened 1, Event.committed 1] }) := by
  have h := success_commits_once_returns_result dlGood fnOkW {}
    st0 { st0 with counter := 1, trace := [Event.opened 1] } 5 rfl rfl rfl
  simpa [st0] using h

/-- Claim C3: for a unit of work that fails inside a top-level
`runInTransaction` call with no retry configured, rollback is issued
exactly once (the controller appends exactly one `rolledBack` event after
the body) and the original failure value `e` is re-thrown to the caller
unchanged — never wrapped or swallowed. -/
theorem failure_rolls_back_once_rethrows {ε α : Type}
    (dl : DataLayer ε) (fn : UoW ε α) (opts : TransactionOptions)
    (st st2 : St) (e : ε)
    (hopen : dl.openResult opts.connection opts.isolationLevel (st.counter + 1) = Except.ok ())
    (hfn : fn (some { transaction := st.counter + 1, id := st.counter + 1,
                      startTime := st.now, options := opts })
             { st with counter := st.counter + 1,
                       trace := st.trace ++ [Event.opened (st.counter + 1)] }
           = (Except.error e, st2))
    (hrb : dl.rollbackResult (st.counter + 1) = Except.ok ())
    (hnoretry : opts.retry = none) :
    runInTransaction dl fn opts none st
      = (Except.error e,
         { st2 with trace := st2.trace ++ [Event.rolledBack (st.counter + 1)] }) := by
  rw [runInTransaction]
  simp only [hopen, hfn, hrb, hnoretry]
  split <;> simp_all

/-- Witness for C3 at concrete inputs. -/
theorem failure_rolls_back_once_rethrows_witness :
    runInTransaction dlGood fnFailW ({} : TransactionOptions) none st0
      = (Except.error 3,
         { st0 with counter := 1, trace := [Event.opened 1, Event.rolledBack 1] }) := by
  have h := failure_rolls_back_once_rethrows dlGood fnFailW {}
    st0 { st0 with counter := 1, trace := [Event.opened 1] } 3 rfl rfl rfl rfl
  simpa [st0] using h

/-- `failTrace` contains exactly `N + 1` `opened` events. -/
theorem failTrace_opensIn (D c N : Nat) : opensIn (failTrace D c N) = N + 1 := by
  induction N generalizing c with
  | zero => simp [failTrace, opensIn]
  | succ n ih => simp only [failTrace, opensIn, List.countP_cons] at *; simp [ih]

/-- `failTrace` contains exactly `N + 1` `rolledBack` events. -/
theorem failTrace_rollbacksIn (D c N : Nat) : rollbacksIn (failTrace D c N) = N + 1 := by
  induction N generalizing c with
  | zero => simp [failTrace, rollbacksIn]
  | succ n ih => simp only [failTrace, rollbacksIn, List.countP_cons] at *; simp [ih]

/-- `failTrace` contains no `committed` events. -/
theorem failTrace_commitsIn (D c N : Nat) : commitsIn (failTrace D c N) = 0 := by
  induction N generalizing c with
  | zero => simp [failTrace, commitsIn]
  | succ n ih => simp only [failTrace, commitsIn, List.countP_cons] at *; simp [ih]

/-- `failTrace` contains exactly `N` `waited` events. -/
theorem failTrace_waitsIn (D c N : Nat) : waitsIn (failTrace D c N) = N := by
  induction N generalizing c with
  | zero => simp [failTrace, waitsIn]
  | succ n ih => simp only [failTrace, waitsIn, List.countP_cons] at *; simp [ih]

/-- Every `waited` event in `failTrace` records exactly delay `D`. -/
theorem failTrace_waited_eq (D c N : Nat) (w : Nat)
    (hw : Event.waited w ∈ failTrace D c N) : w = D := by
  induction N generalizing c with
  | zero => simp [failTrace] at hw
  | succ n ih =>
    simp only [failTrace, List.mem_cons] at hw
    rcases hw with h | h | h | h
    · exact absurd h (by simp)
    · exact absurd h (by simp)
    · exact (Event.waited.injEq w D).mp h
    · exact ih (c + 1) h

/-- The ids opened in `failTrace` are exactly the fresh range
`c + 1, …, c + N + 1`: every attempt opens an entirely new transaction. -/
theorem failTrace_opened_mem (D c N k : Nat) :
    Event.opened k ∈ failTrace D c N ↔ c + 1 ≤ k ∧ k ≤ c + N + 1 := by
  induction N generalizing c with
  | zero => simp [failTrace]; omega
  | succ n ih =>
    simp only [failTrace, List.mem_cons]
    rw [ih (c + 1)]
    constructor
    · rintro (h | h | h | h)
      · cases (Event.opened.injEq _ _).mp h; omega
      · exact absurd h (by simp)
      · exact absurd h (by simp)
      · omega
    · intro h
      by_cases hk : k = c + 1
      · exact Or.inl (by rw [hk])
      · exact Or.inr (Or.inr (Or.inr (by omega)))

/-- Claim C4: an always-failing unit of work run with `retry = ⟨N, D⟩`
performs exactly the first attempt plus `N` retries and then fails with the
final attempt's failure (here every attempt fails with the same `e`, which
is in particular the final one): the trace gains `N + 1` `opened` and
`N + 1` `rolledBack` events and no commit, every retry attempt is preceded
by a `waited D` (there are exactly `N` waits, each of exactly — hence at
least — `D` milliseconds, and the clock advances by `N * D`), and each
attempt opens an entirely new transaction (the opened ids are exactly the
fresh range `st.counter + 1 … st.counter + N + 1`, none of them a reuse). -/
theorem retry_exhausts_budget_fresh_transactions {ε α : Type}
    (dl : DataLayer ε) (fn : UoW ε α) (e : ε) (opts : TransactionOptions)
    (N D : Nat) (st : St)
    (hfn : ∀ ctx s, fn ctx s = (Except.error e, s))
    (hopen : ∀ n, dl.openResult opts.connection opts.isolationLevel n = Except.ok ())
    (hrb : ∀ n, dl.rollbackResult n = Except.ok ()) :
    (runInTransaction dl fn { opts with retry := some ⟨N, D⟩ } none st
      = (Except.error e,
         { st with counter := st.counter + N + 1, now := st.now + N * D,
                   trace := st.trace ++ failTrace D st.counter N }))
    ∧ opensIn (failTrace D st.counter N) = N + 1
    ∧ rollbacksIn (failTrace D st.counter N) = N + 1
    ∧ commitsIn (failTrace D st.counter N) = 0
    ∧ waitsIn (failTrace D st.counter N) = N
    ∧ (∀ w, Event.waited w ∈ failTrace D st.counter N → w = D)
    ∧ (∀ k, Event.opened k ∈ failTrace D st.counter N ↔
         st.counter + 1 ≤ k ∧ k ≤ st.counter + N + 1) := by
  refine ⟨?_, failTrace_opensIn D st.counter N, failTrace_rollbacksIn D st.counter N,
    failTrace_commitsIn D st.counter N, failTrace_waitsIn D st.counter N,
    fun w => failTrace_waited_eq D st.counter N w,
    fun k => failTrace_opened_mem D st.counter N k⟩
  induction N generalizing st with
  | zero =>
    rw [runInTransaction]
    simp [hopen, hfn, hrb, failTrace]
  | succ n ih =>
    rw [runInTransaction]
    simp only [hopen, hfn, hrb]
    simp only [Nat.add_sub_cancel]
    rw [ih]
    simp [failTrace, Nat.succ_mul]
    omega

/-- Witness for C4 at concrete inputs: two retries with delay 5. -/
theorem retry_exhausts_budget_fresh_transactions_witness :
    (∀ ctx s, fnFailW ctx s = (Except.error 3, s))
    ∧ runInTransaction dlGood fnFailW
        { retry := some ⟨2, 5⟩ } none st0
      = (Except.error 3,
         { st0 with counter := st0.counter + 2 + 1, now := st0.now + 2 * 5,
                    trace := st0.trace ++ failTrace 5 st0.counter 2 })
    ∧ opensIn (failTrace 5 st0.counter 2) = 3
    ∧ waitsIn (failTrace 5 st0.counter 2) = 2 := by
  have h := retry_exhausts_budget_fresh_transactions dlGood fnFailW 3 {} 2 5 st0
    (fun _ _ => rfl) (fun _ => rfl) (fun _ => rfl)
  exact ⟨fun _ _ => rfl, h.1, h.2.1, h.2.2.2.2.1⟩

/-- Counterexample to claim C5 as stated.  The `try` block in the source
covers `trx.commit()` as well as the body, so a commit failure IS caught by
the lifecycle controller.  Concretely, with a data layer whose commits
always throw `42` and a unit of work that succeeds: with no retry
configured a rollback IS issued (the trace ends in `rolledBack 1`,
contradicting "no rollback is issued"), and with `retry = ⟨1, 0⟩` a retry
IS attempted (a second transaction is opened, contradicting "no retry is
attempted even when retry is configured"). -/
theorem commit_failure_is_caught_cex :
    (runInTransaction dlCommitFail fnOkW ({} : TransactionOptions) none st0).2.trace
      = [Event.opened 1, Event.rolledBack 1]
    ∧ runInTransaction dlCommitFail fnOkW { retry := some ⟨1, 0⟩ } none st0
      = (Except.error 42,
         { counter := 2, now := 0,
           trace := [Event.opened 1, Event.rolledBack 1, Event.waited 0,
                     Event.opened 2, Event.rolledBack 2] }) := by
  constructor
  · rw [runInTransaction]
    simp [dlCommitFail, fnOkW, st0]
  · rw [runInTransaction]
    simp only [dlCommitFail, fnOkW, st0]
    rw [runInTransaction]
    simp [dlCommitFail, fnOkW, st0]

/-- Claim C5, amended: a commit failure after a successful unit of work is
caught by the same `catch` as a body failure.  Rollback is issued on the
transaction, and then the normal retry bookkeeping applies: with no retry
configured the commit failure propagates to the caller as the final error;
with retry attempts remaining, the controller waits the configured delay
and re-enters a fresh top-level attempt with the budget decremented. -/
theorem commit_failure_caught_rolls_back_then_retries {ε α : Type}
    (dl : DataLayer ε) (fn : UoW ε α) (opts : TransactionOptions)
    (st st2 : St) (a : α) (ce : ε)
    (hopen : dl.openResult opts.connection opts.isolationLevel (st.counter + 1) = Except.ok ())
    (hfn : fn (some { transaction := st.counter + 1, id := st.counter + 1,
                      startTime := st.now, options := opts })
             { st with counter := st.counter + 1,
                       trace := st.trace ++ [Event.opened (st.counter + 1)] }
           = (Except.ok a, st2))
    (hcommit : dl.commitResult (st.counter + 1) = Except.error ce)
    (hrb : dl.rollbackResult (st.counter + 1) = Except.ok ()) :
    (opts.retry = none →
      runInTransaction dl fn opts none st
        = (Except.error ce,
           { st2 with trace := st2.trace ++ [Event.rolledBack (st.counter + 1)] }))
    ∧ (∀ n d, opts.retry = some ⟨n + 1, d⟩ →
      runInTransaction dl fn opts none st
        = runInTransaction dl fn { opts with retry := some ⟨n, d⟩ } none
            { st2 with now := st2.now + d,
                       trace := st2.trace ++ [Event.rolledBack (st.counter + 1),
                                              Event.waited d] }) := by
  constructor
  · intro hnr
    rw [runInTransaction]
    simp only [hopen, hfn, hcommit, hrb, hnr]
    split <;> simp_all
  · intro n d hr
    rw [runInTransaction]
    simp only [hopen, hfn, hcommit, hrb, hr]
    split <;> simp_all

/-- Witness for the amended C5 at concrete inputs. -/
theorem commit_failure_caught_rolls_back_then_retries_witness :
    runInTransaction dlCommitFail fnOkW ({} : TransactionOptions) none st0
      = (Except.error 42,
         { st0 with counter := 1, trace := [Event.opened 1, Event.rolledBack 1] }) := by
  have h := (commit_failure_caught_rolls_back_then_retries dlCommitFail fnOkW {}
    st0 { st0 with counter := 1, trace := [Event.opened 1] } 5 42 rfl rfl rfl rfl).1 rfl
  simpa [st0] using h

/-- Counterexample to claim C6 as stated.  `database.transaction(...)` is
awaited before the `try` block, so an open failure is never caught and
never retried, even with `retry = ⟨3, 5⟩` configured: the call fails with
the open error `7` after a single open attempt (counter 1), with no
rollback, no wait, and no further open in the trace. -/
theorem open_failure_not_retried_cex :
    runInTransaction dlOpenFail fnOkW { retry := some ⟨3, 5⟩ } none st0
      = (Except.error 7, { st0 with counter := 1 })
    ∧ waitsIn (runInTransaction dlOpenFail fnOkW { retry := some ⟨3, 5⟩ } none st0).2.trace = 0
    ∧ opensIn (runInTransaction dlOpenFail fnOkW { retry := some ⟨3, 5⟩ } none st0).2.trace
      = 0 := by
  have h : runInTransaction dlOpenFail fnOkW { retry := some ⟨3, 5⟩ } none st0
      = (Except.error 7, { st0 with counter := 1 }) := by
    rw [runInTransaction]
    simp [dlOpenFail, st0]
  exact ⟨h, by rw [h]; simp [waitsIn, st0], by rw [h]; simp [opensIn, st0]⟩

/-- Claim C6, amended: when the data layer fails to open a transaction in
a top-level `runInTransaction` call, the failure surfaces to the caller
without rollback AND without retry, for every options value — retry
configuration included — because the open call sits outside the guarded
region: the state keeps its trace unchanged (no rollback, no wait, no
further open) and only records the consumed transaction id. -/
theorem open_failure_surfaces_unretried {ε α : Type}
    (dl : DataLayer ε) (fn : UoW ε α) (opts : TransactionOptions) (st : St) (oe : ε)
    (hopen : dl.openResult opts.connection opts.isolationLevel (st.counter + 1)
      = Except.error oe) :
    runInTransaction dl fn opts none st
      = (Except.error oe, { st with counter := st.counter + 1 }) := by
  rw [runInTransaction]
  simp only [hopen]

/-- Witness for the amended C6 at concrete inputs (retry configured). -/
theorem open_failure_surfaces_unretried_witness :
    runInTransaction dlOpenFail fnFailW { retry := some ⟨2, 9⟩ } none st0
      = (Except.error 7, { st0 with counter := 1 }) :=
  open_failure_surfaces_unretried dlOpenFail fnFailW { retry := some ⟨2, 9⟩ } st0 7 rfl

/-- Claim C7: `injectTransaction` never overwrites an explicitly supplied
transaction handle in the options it is given (a `client` field holding a
handle is truthy, so the options come back identical — explicit caller
intent wins over ambient context); when no transaction is current it
returns the options unchanged, or the empty configuration when options is
absent. -/
theorem injectTransaction_preserves_explicit_client :
    (∀ (t u : Nat) (opts : ModelOptions), opts "client" = JsVal.trxV u →
        injectTransaction (some t) (some opts) = opts)
    ∧ (∀ opts : ModelOptions, injectTransaction none (some opts) = opts)
    ∧ injectTransaction none none = emptyOptions := by
  refine ⟨?_, fun opts => rfl, rfl⟩
  intro t u opts h
  simp [injectTransaction, h, truthy]

/-- Witness for C7 at concrete inputs. -/
theorem injectTransaction_preserves_explicit_client_witness :
    injectTransaction (some 2) (some fun k => if k == "client" then JsVal.trxV 9
      else JsVal.undefinedV)
      = (fun k => if k == "client" then JsVal.trxV 9 else JsVal.undefinedV)
    ∧ injectTransaction none
        (some fun k => if k == "client" then JsVal.trxV 9 else JsVal.undefinedV)
      = (fun k => if k == "client" then JsVal.trxV 9 else JsVal.undefinedV)
    ∧ injectTransaction none none = emptyOptions := by
  refine ⟨?_, ?_, injectTransaction_preserves_explicit_client.2.2⟩
  · exact injectTransaction_preserves_explicit_client.1 2 9 _ rfl
  · exact injectTransaction_preserves_explicit_client.2.1 _

/-- Claim C10 (implicit): `injectTransaction` decides "explicitly
supplied" by JavaScript truthiness of the `client` field, not by its
presence.  When a transaction `t` is current and the caller's options
carry any falsy `client` value — `null`, `undefined`, or `false` are all
falsy — the field is overwritten with the current handle (and all other
keys are preserved). -/
theorem injectTransaction_overwrites_falsy_client :
    (∀ (t : Nat) (opts : ModelOptions), truthy (opts "client") = false →
        injectTransaction (some t) (some opts)
          = fun k => if k == "client" then JsVal.trxV t else opts k)
    ∧ truthy JsVal.nullV = false
    ∧ truthy JsVal.undefinedV = false
    ∧ truthy (JsVal.boolV false) = false := by
  refine ⟨?_, rfl, rfl, rfl⟩
  intro t opts h
  simp [injectTransaction, h]

/-- Witness for C10 at concrete inputs: a present-but-null `client` field
is overwritten with the current handle `2`. -/
theorem injectTransaction_overwrites_falsy_client_witness :
    injectTransaction (some 2) (some fun k => if k == "client" then JsVal.nullV
      else JsVal.strV "x")
      = (fun k => if k == "client" then JsVal.trxV 2
          else if k == "client" then JsVal.nullV else JsVal.strV "x")
    ∧ injectTransaction (some 2)
        (some fun k => if k == "client" then JsVal.nullV else JsVal.strV "x") "client"
      = JsVal.trxV 2 := by
  have h := injectTransaction_overwrites_falsy_client.1 2
    (fun k => if k == "client" then JsVal.nullV else JsVal.strV "x") rfl
  exact ⟨h, by rw [h]; simp⟩

/-- Claim C8: `conditional` with a predicate that settles to `false` never
invokes the operation and never opens a transaction — for every operation,
ambient context, and state, the result is the skipped sentinel with the
state untouched (no `opened` event, nothing the operation could have
contributed) — and the skipped sentinel `none` is distinct from every real
result `some a` the operation could produce. -/
theorem conditional_false_skips_operation {ε α : Type} :
    (∀ (dl : DataLayer ε) (operation : UoW ε α) (opts : TransactionOptions)
        (ctx : Option TransactionContext) (st : St),
        conditional dl false operation opts ctx st = (Except.ok none, st))
    ∧ ∀ (a : α), (Except.ok (some a) : Except ε (Option α)) ≠ Except.ok none := by
  exact ⟨fun dl operation opts ctx st => rfl, fun a => by simp⟩

/-- Witness for C8 at concrete inputs. -/
theorem conditional_false_skips_operation_witness :
    conditional dlGood false fnOkW ({} : TransactionOptions) none st0 = (Except.ok none, st0)
    ∧ (Except.ok (some 5) : Except Nat (Option Nat)) ≠ Except.ok none :=
  ⟨conditional_false_skips_operation.1 dlGood fnOkW {} none st0,
   conditional_false_skips_operation.2 5⟩

/-- Claim C9: calling `withSavepoint` when no transaction is current fails
immediately with the distinct misuse error, for every supplied operation
and state — the operation is never invoked (the state comes back
untouched) — and that misuse error differs from every error the operation
itself could raise. -/
theorem withSavepoint_outside_transaction_fails {ε α : Type} :
    (∀ (nm : String) (operation : UoW ε α) (st : St),
        withSavepoint nm operation none st
          = (Except.error (Sum.inl SavepointError.notInTransaction), st))
    ∧ ∀ (e : ε),
        (Sum.inl SavepointError.notInTransaction : SavepointError ⊕ ε) ≠ Sum.inr e := by
  exact ⟨fun nm operation st => rfl, fun e => by simp⟩

/-- Witness for C9 at concrete inputs. -/
theorem withSavepoint_outside_transaction_fails_witness :
    withSavepoint "checkpoint" fnOkW none st0
      = (Except.error (Sum.inl SavepointError.notInTransaction), st0)
    ∧ (Sum.inl SavepointError.notInTransaction : SavepointError ⊕ Nat) ≠ Sum.inr 3 :=
  ⟨(@withSavepoint_outside_transaction_fails Nat Nat).1 "checkpoint" fnOkW st0,
   (@withSavepoint_outside_transaction_fails Nat Nat).2 3⟩

end AdonisTransaction
